import Mathlib

/-!
Shallow embedding of the CMR search / discovery / publish lambdas of the
`nncpp-cumulus-deploy` repository (directory `cumulus-tf/lambdas/cmr/src`),
together with theorems settling the claims about its specification.

The embedding follows the JavaScript sources:
  * `cmr.js` — query/header canonicalization, response decoding, the
    paged/scrolled search step (`pagedSearch`), scroll release
    (`clearScroll`), the exponential backoff delay (`exponentiallyDelay`),
    and the publish conflict detection (`isParentChangeError`);
  * `discoverGranulesCmr.js` — duplicate filtering (`makeIsNotDuplicateFn`)
    and byte-size conversion (`sizeInBytes`);
  * `publishGranule.js` — the publish Lambda handler.

Ambient effects are made explicit: the current clock reading is a `String`
parameter, `Math.random` jitter is a rational parameter, and every HTTP
exchange is an oracle function supplied to the embedded code.  JavaScript
numbers are modelled as `Int`/`ℚ` (the values involved are exact in
float64 far below any precision boundary), and JavaScript truthiness is
modelled explicitly where the source relies on it.
-/

/-! ### JavaScript-ish values for query parameters and headers -/

/-- A scalar value of a query-parameter / header map, as used by the
canonicalization functions of `cmr.js`.  `vnull` stands for JavaScript
`null`/`undefined`. -/
inductive QVal where
  | vnull : QVal
  | vstr : String → QVal
  | vnum : Int → QVal
  | vbool : Bool → QVal
  deriving DecidableEq

/-- `R.complement(R.either(R.isNil, R.isEmpty))` from `cmr.js` line 12:
`null`/`undefined` and empty strings are "missing"; numbers and booleans
never are (`R.isEmpty` is `false` on them). -/
def isNotMissing : QVal → Bool
  | .vnull => false
  | .vstr s => s ≠ ""
  | .vnum _ => true
  | .vbool _ => true

/-- JavaScript truthiness of a `QVal`. -/
def qtruthy : QVal → Bool
  | .vnull => false
  | .vstr s => s ≠ ""
  | .vnum n => n ≠ 0
  | .vbool b => b

/-- A query-parameter (or header) map, as an association list in JavaScript
object insertion order. -/
abbrev QMap := List (String × QVal)

/-- Helper for `fromPairs`: `seen` collects the keys already emitted, so
that only the first occurrence of a key produces an entry. -/
def fromPairsAux (seen : List String) : QMap → QMap
  | [] => []
  | (k, v) :: ps =>
    if k ∈ seen then fromPairsAux seen ps
    else (k, ((ps.reverse.lookup k).getD v)) :: fromPairsAux (k :: seen) ps

/-- `R.fromPairs`: build an object from pairs.  A later pair with the same
key overwrites the value but keeps the position of the first occurrence,
exactly as JavaScript property assignment does. -/
def fromPairs (l : QMap) : QMap := fromPairsAux [] l

/-- `R.omit([k])` on an object. -/
def omitKey (k : String) (m : QMap) : QMap :=
  m.filter (fun p => p.1 ≠ k)

/-- `R.pickBy(isNotMissing)` on an object. -/
def pickByNotMissing (m : QMap) : QMap :=
  m.filter (fun p => isNotMissing p.2)

/-- `R.prop k` followed by a truthiness test (`R.when(R.prop k, …)`). -/
def propTruthy (k : String) (m : QMap) : Bool :=
  match m.lookup k with
  | some v => qtruthy v
  | none => false

/-! ### ASCII case mapping and the configured `camelCase` of the
`camel-case@4` dependency

`toCanonicalQueryParams` calls
`camelCase(name, { stripRegexp: /[^A-Z\d\[\]]/ig })`.  The `camel-case@4`
package (via `pascal-case`/`no-case`) first inserts a separator between a
lowercase-or-digit character and an uppercase character, then between an
uppercase character and an uppercase-followed-by-lowercase pair, then
replaces every character rejected by the strip pattern with the separator,
trims separators from both ends, splits into words, lowercases the first
word, capitalizes the remaining words (lowercasing their tails, and
prefixing an underscore when a later word starts with a digit), and joins
with the empty delimiter.  The key names involved are ASCII. -/

/-- The internal separator (`"\u0000"` in `no-case`). -/
def markerCh : Char := '\x00'

def isAsciiUpper (c : Char) : Bool := 'A' ≤ c && c ≤ 'Z'

def isAsciiLower (c : Char) : Bool := 'a' ≤ c && c ≤ 'z'

def isDigitCh (c : Char) : Bool := '0' ≤ c && c ≤ '9'

/-- ASCII `toLowerCase` on one character. -/
def lowerCh (c : Char) : Char :=
  if isAsciiUpper c then Char.ofNat (c.toNat + 32) else c

/-- ASCII `toUpperCase` on one character. -/
def upperCh (c : Char) : Char :=
  if isAsciiLower c then Char.ofNat (c.toNat - 32) else c

/-- `String.prototype.toLowerCase` (header names here are ASCII). -/
def lowerStr (s : String) : String :=
  ⟨s.data.map lowerCh⟩

/-- First split pass of `no-case`: `/([a-z0-9])([A-Z])/g` inserting the
separator between the two groups. -/
def split1 : List Char → List Char
  | c1 :: c2 :: rest =>
    if (isAsciiLower c1 || isDigitCh c1) && isAsciiUpper c2 then
      c1 :: markerCh :: split1 (c2 :: rest)
    else
      c1 :: split1 (c2 :: rest)
  | l => l

/-- Second split pass of `no-case`: `/([A-Z])([A-Z][a-z])/g` inserting the
separator between the two groups. -/
def split2 : List Char → List Char
  | c1 :: c2 :: c3 :: rest =>
    if isAsciiUpper c1 && isAsciiUpper c2 && isAsciiLower c3 then
      c1 :: markerCh :: split2 (c2 :: c3 :: rest)
    else
      c1 :: split2 (c2 :: c3 :: rest)
  | l => l

/-- Characters kept by the configured strip pattern `/[^A-Z\d\[\]]/ig`
(case-insensitive, so all ASCII letters are kept). -/
def keepCh (c : Char) : Bool :=
  isAsciiUpper c || isAsciiLower c || isDigitCh c || c = '[' || c = ']'

/-- Strip pass: every rejected character becomes the separator. -/
def stripMark (l : List Char) : List Char :=
  l.map (fun c => if keepCh c then c else markerCh)

/-- Trim separators from both ends (as `no-case` does before splitting). -/
def trimMarker (l : List Char) : List Char :=
  ((l.dropWhile (· = markerCh)).reverse.dropWhile (· = markerCh)).reverse

/-- Split on the separator (`String.prototype.split`, which yields one
empty word for the empty string and empty words between adjacent
separators). -/
def splitOnMarker (l : List Char) : List (List Char) :=
  l.foldr
    (fun c acc =>
      if c = markerCh then [] :: acc
      else
        match acc with
        | t :: ts => (c :: t) :: ts
        | [] => [[c]])
    [[]]

/-- `camelCaseTransform` of `camel-case@4`: the first word is lowercased
whole; later words get `pascalCaseTransform` (capitalize the head,
lowercase the tail, `_`-prefix words starting with a digit). -/
def camelTransform (idx : Nat) (w : List Char) : List Char :=
  if idx = 0 then w.map lowerCh
  else
    match w with
    | [] => []
    | c :: cs =>
      if isDigitCh c then '_' :: c :: cs.map lowerCh
      else upperCh c :: cs.map lowerCh

/-- `camelCase(name, { stripRegexp: /[^A-Z\d\[\]]/ig })` as called by
`toCanonicalQueryParams` (`cmr.js` line 584). -/
def camelCaseKey (s : String) : String :=
  ⟨(List.mapIdx camelTransform
      (splitOnMarker (trimMarker (stripMark (split2 (split1 s.data)))))).flatten⟩

/-! ### The `temporal` `now`-substitution -/

/-- Does the character list contain the token `now`, case-insensitively
(`/now/gi` would match)? -/
def hasNowCI : List Char → Bool
  | c1 :: c2 :: c3 :: rest =>
    (lowerCh c1 = 'n' && lowerCh c2 = 'o' && lowerCh c3 = 'w') ||
      hasNowCI (c2 :: c3 :: rest)
  | _ => false

/-- `s.replace(/now/gi, t)`: replace every (left-to-right, non-overlapping)
case-insensitive occurrence of `now` with `t`.  The replacement string is
inserted verbatim and never rescanned, as in JavaScript. -/
def replaceNowCI (t : List Char) : List Char → List Char
  | c1 :: c2 :: c3 :: rest =>
    if lowerCh c1 = 'n' && lowerCh c2 = 'o' && lowerCh c3 = 'w' then
      t ++ replaceNowCI t rest
    else
      c1 :: replaceNowCI t (c2 :: c3 :: rest)
  | l => l

/-- String-level wrapper for `replaceNowCI`. -/
def replaceNowStr (t s : String) : String :=
  ⟨replaceNowCI t.data s.data⟩

/-- The `temporal` update of `toCanonicalQueryParams`.  In the source the
value is a string (`params.temporal.replace(...)`); a non-string value
would raise a `TypeError` there, so non-string values are left untouched
here and never claimed about. -/
def replaceTemporalVal (nowISO : String) : QVal → QVal
  | .vstr s => .vstr (replaceNowStr nowISO s)
  | v => v

/-- `R.assoc("temporal", …, params)`: update the `temporal` entry in
place. -/
def setTemporal (nowISO : String) (m : QMap) : QMap :=
  m.map (fun p => if p.1 = "temporal" then (p.1, replaceTemporalVal nowISO p.2) else p)

/-! ### The canonicalizers of `cmr.js` -/

/-- `toCanonicalHeaders` (`cmr.js` lines 529–538): lowercase every header
name, rebuild the object, drop nil/empty values. -/
def toCanonicalHeaders (hs : QMap) : QMap :=
  pickByNotMissing (fromPairs (hs.map (fun p => (lowerStr p.1, p.2))))

/-- `R.when(R.prop("scroll"), R.omit(["pageNum"]))`. -/
def applyScroll (m : QMap) : QMap :=
  if propTruthy "scroll" m then omitKey "pageNum" m else m

/-- `R.when(R.prop("temporal"), …R.assoc("temporal", replace…)…)`. -/
def applyTemporal (nowISO : String) (m : QMap) : QMap :=
  if propTruthy "temporal" m then setTemporal nowISO m else m

/-- `toCanonicalQueryParams` (`cmr.js` lines 581–601): camel-case the
names, rebuild the object, drop `pageNum` when scrolling, substitute
`now` in `temporal`, drop nil/empty values.  The ambient clock reading
`new Date(Date.now()).toISOString()` is passed in as `nowISO`; the source
evaluates it once per call, before the global replacement. -/
def toCanonicalQueryParams (nowISO : String) (qp : QMap) : QMap :=
  pickByNotMissing
    (applyTemporal nowISO (applyScroll (fromPairs (qp.map (fun p => (camelCaseKey p.1, p.2))))))

/-! ### JSON response decoding (`transformJSONResponse`, `cmr.js` 449–452) -/

/-- A parsed JSON value (`JSON.parse` output).  The decoder operates on the
parsed value; a parse failure would throw upstream of the behaviour claimed
about. -/
inductive JValue where
  | jnull : JValue
  | jbool : Bool → JValue
  | jnum : Int → JValue
  | jstr : String → JValue
  | jarr : List JValue → JValue
  | jobj : List (String × JValue) → JValue

/-- Own-property lookup on a parsed value (objects only, as `R.has`). -/
def jlookup (k : String) : JValue → Option JValue
  | .jobj fs => fs.lookup k
  | _ => none

/-- `R.hasPath(["feed", "entry"])`: a `feed` own property whose value has
an `entry` own property. -/
def hasFeedEntry (v : JValue) : Bool :=
  match jlookup "feed" v with
  | some f => (jlookup "entry" f).isSome
  | none => false

/-- `transformJSONResponse = R.pipe(JSON.parse,
R.when(R.hasPath(["feed","entry"]), R.path(["feed","entry"])))`: when the
`feed.entry` path exists return the value at it, otherwise return the
parsed value unchanged (`R.when` is the identity on a failed predicate). -/
def transformJSONResponse (v : JValue) : JValue :=
  if hasFeedEntry v then ((jlookup "feed" v).bind (jlookup "entry")).getD .jnull
  else v

/-! ### Byte-size conversion (`sizeInBytes`, `discoverGranulesCmr.js`
299–321)

The surrounding distribution-entry selection passes the selected entry's
`SizeInBytes`, `Size` and `SizeUnit` fields (each possibly absent, the
selected entry possibly `{}`); the conversion below is the body
`bytes ? Number(bytes) : size ? Math.round(size * (unitFactor[unit] || 1)) :
undefined`. -/

/-- `Math.round`: round half toward positive infinity. -/
def jsRound (q : ℚ) : Int := ⌊q + 1 / 2⌋

/-- The `unitFactor` lookup table (1024-based multipliers). -/
def unitFactor : String → Option Nat
  | "KB" => some 1024
  | "MB" => some (1024 * 1024)
  | "GB" => some (1024 * 1024 * 1024)
  | "TB" => some (1024 * 1024 * 1024 * 1024)
  | "PB" => some (1024 * 1024 * 1024 * 1024 * 1024)
  | _ => none

/-- `unitFactor[unit] || 1` with `unit` possibly absent. -/
def factorOf (unit : Option String) : ℚ :=
  match unit with
  | some u => ((unitFactor u).getD 1 : Nat)
  | none => 1

/-- The conversion itself.  JavaScript truthiness: a present but zero
`SizeInBytes` falls through to `Size`; a present but zero `Size` yields
`undefined`. -/
def sizeInBytes (bytes : Option ℚ) (size : Option ℚ) (unit : Option String) :
    Option ℚ :=
  let fromSize : Option ℚ :=
    match size with
    | some s => if s = 0 then none else some ((jsRound (s * factorOf unit) : Int) : ℚ)
    | none => none
  match bytes with
  | some b => if b = 0 then fromSize else some b
  | none => fromSize

/-! ### Backoff delay (`exponentiallyDelay`, `cmr.js` 72–87) and the retry
configuration of `createAxiosClient` (`cmr.js` 36–48) -/

/-- JavaScript `ToInt32` (the `| 0` coercion) applied to an integer. -/
def toInt32 (n : Int) : Int := (n + 2 ^ 31) % 2 ^ 32 - 2 ^ 31

/-- Truncation toward zero of a rational, as `ToInt32` first does to its
numeric operand. -/
def truncRat (q : ℚ) : Int := if 0 ≤ q then ⌊q⌋ else -⌊-q⌋

/-- `x | 0` on a rational JavaScript number. -/
def bitOrZero (q : ℚ) : Int := toInt32 (truncRat q)

/-- `(2 ** (attempt - 1) + Math.random()) * 1000 | 0` with the jitter made
an explicit parameter. -/
def exponentialDelayMillis (attempt : Int) (jitter : ℚ) : Int :=
  bitOrZero (((2 : ℚ) ^ (attempt - 1) + jitter) * 1000)

/-- `delayMillis = Math.min(exponentialDelayMillis, maxDelayMillis)`; the
`maxDelayMillis` parameter of `exponentiallyDelay` defaults to `32_000`. -/
def delayMillis (attempt : Int) (jitter : ℚ) (maxDelayMillis : Int := 32000) : Int :=
  min (exponentialDelayMillis attempt jitter) maxDelayMillis

/-- The retry-relevant fields of the `raxConfig` defaults installed by
`createAxiosClient`. -/
structure RaxConfig where
  retryDelay : Nat
  backoffType : String
  retry : Nat

/-- `client.defaults.raxConfig` as set in `createAxiosClient`
(`cmr.js` 36–48). -/
def createAxiosClientRaxConfig : RaxConfig :=
  { retryDelay := 0, backoffType := "linear", retry := 6 }

/-- The status ranges retried by default by the `retry-axios` dependency
(`statusCodesToRetry` default: 1xx, 429, 5xx). -/
def retryStatusRanges : List (Nat × Nat) := [(100, 199), (429, 429), (500, 599)]

/-- `shouldRetryRequest` of the `retry-axios@2` dependency, specialized to
a request whose method is in the retried-methods list (GET/PUT/DELETE all
are): retries are refused when the configured count is zero, when a
response-less failure has already used up `noResponseRetries`, when a
response status is outside the retryable ranges, or when
`currentRetryAttempt` (the number of retries already performed) has
reached the configured `retry` count. -/
def shouldRetryRequest (retryCfg noResponseRetries currentRetryAttempt : Nat)
    (status : Option Nat) : Bool :=
  if retryCfg = 0 then false
  else
    match status with
    | none => currentRetryAttempt < noResponseRetries && currentRetryAttempt < retryCfg
    | some s =>
      retryStatusRanges.any (fun p => p.1 ≤ s && s ≤ p.2) &&
        currentRetryAttempt < retryCfg

/-! ### The paged/scrolled search step (`pagedSearch`, `cmr.js` 358–393)
and scroll release (`clearScroll`, `cmr.js` 405–421)

`findConcepts` builds the client with
`validateStatus: (status) => 200 <= status && status < 300 || status === 404`,
so `client.get` resolves for 2xx and 404 responses and rejects otherwise.
Decoded records are opaque to the step and are modelled as `Nat`. -/

/-- The request options threaded through `pagedSearch`: the
`headers['cmr-scroll-id']` entry and the `params.pageNum` / `params.pageSize`
entries. -/
structure SearchOptions where
  scrollId : Option String := none
  pageNum : Option Int := none
  pageSize : Option Int := none
  deriving DecidableEq

/-- One HTTP response, post response-transform: its status, the decoded
records (`response.data`), and the `cmr-hits` / `cmr-scroll-id` headers
(`hitsHeader` is the numeric reading of `cmr-hits`; an absent or
non-numeric header is `none`). -/
structure CmrResponse where
  status : Nat
  rdata : List Nat
  hitsHeader : Option Nat
  scrollHeader : Option String
  deriving DecidableEq

/-- The accumulator state of `pagedSearch`: the current options and the
`_hits` / `_count` parameters. -/
structure SearchState where
  options : SearchOptions
  hits : Nat
  count : Int
  deriving DecidableEq

/-- Outcome of one `client.get`: a reply of any status, or a failure
without a response (network error, retries exhausted upstream). -/
inductive HttpResult where
  | reply : CmrResponse → HttpResult
  | netFail : String → HttpResult
  deriving DecidableEq

/-- JavaScript truthiness of an optional string (`undefined` and `""` are
falsy). -/
def strTruthy : Option String → Bool
  | some s => s ≠ ""
  | none => false

/-- `a || b` on optional strings, as in
`getScrollId(options) || getScrollId(response)`. -/
def jsOrStr (a b : Option String) : Option String :=
  match a with
  | some s => if s = "" then b else some s
  | none => b

/-- `Number(response.headers['cmr-hits']) || _hits`: an absent or
non-numeric header, or a zero reading, falls back to the accumulated
`_hits`. -/
def effHits (r : CmrResponse) (prev : Nat) : Nat :=
  match r.hitsHeader with
  | some h => if h = 0 then prev else h
  | none => prev

/-- The `validateStatus` predicate installed by `findConcepts`. -/
def validStatus (s : Nat) : Bool := (200 ≤ s && s < 300) || s = 404

/-- Result of one `pagedSearch` step: `next` is the `[results, params]`
pair continuing the unfold; `closed` is the `void clearScroll(...)` return
(the argument is the scroll id handed to `clearScroll`); `failed` is the
catch branch (`clearScroll(client, getScrollId(options))` followed by a
rethrow). -/
inductive PageStep where
  | next : List Nat → SearchState → PageStep
  | closed : Option String → PageStep
  | failed : String → Option String → PageStep
  deriving DecidableEq

/-- One step of `pagedSearch` given the outcome of its `client.get`. -/
def pagedSearch (st : SearchState) (res : HttpResult) : PageStep :=
  match res with
  | .netFail e => .failed e st.options.scrollId
  | .reply r =>
    if validStatus r.status then
      let results := if r.status = 404 then [] else r.rdata
      let scrollId := jsOrStr st.options.scrollId r.scrollHeader
      let hits := effHits r st.hits
      let ignoring404 := r.status = 404 && decide (0 < hits)
      let skippedPageSize : Int := min (st.options.pageSize.getD 10) ((hits : Int) - st.count)
      let nextOpts :=
        if strTruthy scrollId then { st.options with scrollId := scrollId }
        else { st.options with pageNum := some (st.options.pageNum.getD 1 + 1) }
      let nextState : SearchState :=
        { options := nextOpts
          hits := hits
          count := st.count + (if ignoring404 then skippedPageSize else (results.length : Int)) }
      if results.length > 0 || ignoring404 then .next results nextState
      else .closed scrollId
    else .failed ("Request failed with status code " ++ toString r.status) st.options.scrollId

/-- Final outcome of a whole search run. -/
inductive SearchOutcome where
  | completed : SearchOutcome
  | failed : String → SearchOutcome
  | fuelOut : SearchOutcome
  deriving DecidableEq

/-- Observable trace of a search run: the records yielded downstream, the
primary outcome, the scroll ids for which a clear-scroll request was
actually issued, and the warnings logged for failed clear-scroll
requests. -/
structure SearchRun where
  records : List Nat
  outcome : SearchOutcome
  releases : List String
  warns : List String
  deriving DecidableEq

/-- `clearScroll` (`cmr.js` 405–421): with a falsy scroll id it returns
without issuing anything; otherwise it posts to `/search/clear-scroll`
and, when that fails, catches the error and logs a warning — it never
rethrows.  `rel` is the outcome oracle of the release request; the result
is the pair (ids released, warnings logged). -/
def clearScrollCalls (rel : String → Except String Unit) (scrollId : Option String) :
    List String × List String :=
  match scrollId with
  | none => ([], [])
  | some id =>
    if id = "" then ([], [])
    else
      ([id],
        match rel id with
        | .ok _ => []
        | .error e => [e])

/-- Modelled from the spec: the search-loop driver.  `findConcepts` runs
`pagedSearch` through the `asyncFlatUnfold` combinator of `async-iter.js`
(a file absent from `src/`, whose unfold semantics §4.4 describes and
`test/async-iter.test.js` exercises): the step function is applied
repeatedly, each yielded page is flattened into the output stream, and a
non-pair return ends the stream.  `fuel` bounds the otherwise unbounded
loop; `http` gives each `client.get` outcome as a function of the state at
which it is issued. -/
def runPagedSearch (http : SearchState → HttpResult) (rel : String → Except String Unit) :
    Nat → SearchState → SearchRun
  | 0, _ => { records := [], outcome := .fuelOut, releases := [], warns := [] }
  | fuel + 1, st =>
    match pagedSearch st (http st) with
    | .next page st2 =>
      let rest := runPagedSearch http rel fuel st2
      { records := page ++ rest.records
        outcome := rest.outcome
        releases := rest.releases
        warns := rest.warns }
    | .closed sid =>
      let rw := clearScrollCalls rel sid
      { records := [], outcome := .completed, releases := rw.1, warns := rw.2 }
    | .failed e sid =>
      let rw := clearScrollCalls rel sid
      { records := [], outcome := .failed e, releases := rw.1, warns := rw.2 }

/-! ### The publish conflict resolver (`publishGranule`,
`isParentChangeError`, `cmr.js` 196–246)

`publishGranule` PUTs the metadata through a client whose `raxConfig` has
`retry: 6`, `shouldRetry: R.either(isParentChangeError, RAX.shouldRetryRequest)`
and an `onRetryAttempt` hook that unpublishes (DELETEs) the granule when
the error is a parent-change conflict.  The loop below embeds the
`onError` algorithm of the `retry-axios@2` dependency under that
configuration: on a rejection, the configured `shouldRetry` decides; a
refusal surfaces the error; otherwise `currentRetryAttempt` is
incremented, the `onRetryAttempt` result is awaited (a rejection there —
the DELETE failing — rejects the whole operation without re-requesting),
and the original request is re-issued. -/

/-- An Axios rejection: response status (absent for network failures) and
the `response.data.errors` list. -/
structure HttpErrorInfo where
  status : Option Nat
  errors : List String
  deriving DecidableEq

/-- Is `needle` a prefix of the list? -/
def isPrefixOfCh : List Char → List Char → Bool
  | [], _ => true
  | _ :: _, [] => false
  | a :: as, b :: bs => a = b && isPrefixOfCh as bs

/-- Substring containment (`R.includes` on strings). -/
def containsSeq (needle : List Char) : List Char → Bool
  | [] => needle.isEmpty
  | c :: cs => isPrefixOfCh needle (c :: cs) || containsSeq needle cs

/-- `hay.includes(needle)` / `R.includes(needle, hay)`. -/
def strIncludes (hay needle : String) : Bool :=
  containsSeq needle.data hay.data

/-- The conflict message fragment matched by `isParentChangeError`. -/
def parentChangeMsg : String := "parent collection cannot be changed"

/-- `isParentChangeError` (`cmr.js` 240–246): response status 422 and some
entry of `response.data.errors` containing the parent-change message. -/
def isParentChangeError (e : HttpErrorInfo) : Bool :=
  e.status = some 422 && e.errors.any (fun m => strIncludes m parentChangeMsg)

/-- Outcome of one PUT attempt. -/
inductive PutEvent where
  | success : Nat → PutEvent
  | failure : HttpErrorInfo → PutEvent
  deriving DecidableEq

/-- A request event observable in a publish run. -/
inductive PubEvent where
  | putEv : PubEvent
  | delEv : PubEvent
  deriving DecidableEq

/-- Final outcome of a publish run. -/
inductive PublishOutcome where
  | published : Nat → PublishOutcome
  | failed : HttpErrorInfo → PublishOutcome
  | failedDelete : HttpErrorInfo → PublishOutcome
  | fuelOut : PublishOutcome
  deriving DecidableEq

/-- Trace of a publish run: its outcome and the ordered PUT/DELETE request
events issued. -/
structure PublishResult where
  outcome : PublishOutcome
  events : List PubEvent
  deriving DecidableEq

/-- The publish loop of `publishGranule` as configured: `put k` is the
outcome of the (k+1)-st PUT of the metadata, `del k` that of the (k+1)-st
DELETE (both post any internal transport retries of the DELETE's own
client); `attempt` is `currentRetryAttempt` before the next
`shouldRetry` check (0 on the first failure). -/
def publishLoop (put : Nat → PutEvent) (del : Nat → Except HttpErrorInfo Unit) :
    Nat → Nat → Nat → Nat → PublishResult
  | 0, _, _, _ => { outcome := .fuelOut, events := [] }
  | fuel + 1, p, d, attempt =>
    match put p with
    | .success s => { outcome := .published s, events := [.putEv] }
    | .failure e =>
      if isParentChangeError e then
        match del d with
        | .error de => { outcome := .failedDelete de, events := [.putEv, .delEv] }
        | .ok _ =>
          let rest := publishLoop put del fuel (p + 1) (d + 1) (attempt + 1)
          { outcome := rest.outcome, events := .putEv :: .delEv :: rest.events }
      else if shouldRetryRequest 6 2 attempt e.status then
        let rest := publishLoop put del fuel (p + 1) d (attempt + 1)
        { outcome := rest.outcome, events := .putEv :: rest.events }
      else
        { outcome := .failed e, events := [.putEv] }

/-- The event trace of `n` conflict-driven unpublish/republish cycles. -/
def conflictCycle : Nat → List PubEvent
  | 0 => []
  | n + 1 => .putEv :: .delEv :: conflictCycle n

/-! ### The duplicate filter (`makeIsNotDuplicateFn`,
`discoverGranulesCmr.js` 270–274) -/

/-- A discovered granule as it reaches the duplicate filter of the
discovery pipeline (`discoverGranules` applies the filter after the
per-record mapping and after dropping records with no `files[0]`). -/
structure DGranule where
  granuleId : String
  deriving DecidableEq

/-- Modelled from the spec: `checkGranuleHasNoDuplicate` of the external
`@cumulus/discover-granules` package — the "is already recorded" predicate
of spec §4.5 step 5 / §6, parametrized by the set of already-recorded
granule ids.  For a recorded granule it throws under the `error` policy
and reports `false` under `skip`; for an unrecorded granule it reports
`true`. -/
def checkGranuleHasNoDuplicate (recorded : String → Bool) (granuleId : String)
    (duplicateHandling : String) : Except String Bool :=
  if recorded granuleId then
    if duplicateHandling = "error" then .error ("Duplicate granule found: " ++ granuleId)
    else .ok false
  else .ok true

/-- `makeIsNotDuplicateFn` (`discoverGranulesCmr.js` 270–274): under
`skip`/`error` the returned predicate consults
`checkGranuleHasNoDuplicate` on the granule's id; under any other policy
it is `R.T` and the external predicate is not consulted.  The second
component instruments each consultation with the id consulted. -/
def makeIsNotDuplicateFn (recorded : String → Bool) (duplicateHandling : String)
    (g : DGranule) : Except String Bool × List String :=
  if duplicateHandling = "skip" || duplicateHandling = "error" then
    (checkGranuleHasNoDuplicate recorded g.granuleId duplicateHandling, [g.granuleId])
  else
    (.ok true, [])

/-- `I.asyncFilter(isNotDuplicate)` over the candidate stream: candidates
are tested in order; a thrown error aborts the stream so that nothing at
or after the throwing candidate is yielded downstream.  Returns the
granules yielded downstream, the aborting error (if any), and the ids for
which the external predicate was consulted. -/
def applyDupFilter (recorded : String → Bool) (duplicateHandling : String) :
    List DGranule → (List DGranule × Option String) × List String
  | [] => (([], none), [])
  | g :: gs =>
    match makeIsNotDuplicateFn recorded duplicateHandling g with
    | (.error e, log) => (([], some e), log)
    | (.ok keep, log) =>
      let rest := applyDupFilter recorded duplicateHandling gs
      ((if keep then g :: rest.1.1 else rest.1.1, rest.1.2), log ++ rest.2)

/-! ### The publish Lambda handler (`publishGranule.js` 138–180) -/

/-- The fields of the first input granule that the handler reads or
writes; everything else passes through unchanged. -/
structure PGranule where
  dataType : String
  published : Bool
  cmrLink : Option String
  deriving DecidableEq

/-- The response body of a successful publish PUT (`data["concept-id"]`). -/
structure ConceptResp where
  conceptId : String
  deriving DecidableEq

/-- `(process.env.CMR_DRY_RUN || "true").toLowerCase() === "true"`: unset
and empty readings default to `"true"`. -/
def dryRunEnabled (cmrDryRun : Option String) : Bool :=
  lowerStr
      (match cmrDryRun with
        | some s => if s = "" then "true" else s
        | none => "true") =
    "true"

/-- The `publishGranule` handler (`publishGranule.js` 138–180), after the
metadata generation produced `granuleUR` (and the XML, which only flows to
the oracles).  `validate` is the outcome of `CMR.validateGranule`,
`publish ur` the outcome of `CMR.publishGranule ur` (the whole conflict
machinery included, as one call).  Returns the rejection or the output
granule list, paired with the list of granule URs for which a publish was
actually attempted. -/
def publishGranuleHandler (cmrDryRun : Option String) (cmrHost : String)
    (validate : Except HttpErrorInfo Unit)
    (publish : String → Except HttpErrorInfo ConceptResp)
    (granuleUR : String) (g : PGranule) :
    Except HttpErrorInfo (List PGranule) × List String :=
  if dryRunEnabled cmrDryRun then
    match validate with
    | .error e => (.error e, [])
    | .ok _ => (.ok [{ g with published := true }], [])
  else
    match publish granuleUR with
    | .ok resp =>
      (.ok [{ g with
              published := true
              cmrLink := some (cmrHost ++ "/search/concepts/" ++ resp.conceptId ++ ".umm_json") }],
        [granuleUR])
    | .error e =>
      if e.status = some 409 && granuleUR.startsWith (g.dataType ++ ".") then
        match publish (granuleUR.drop (g.dataType ++ ".").length) with
        | .ok resp =>
          (.ok [{ g with
                  published := true
                  cmrLink := some (cmrHost ++ "/search/concepts/" ++ resp.conceptId ++ ".umm_json") }],
            [granuleUR, granuleUR.drop (g.dataType ++ ".").length])
        | .error e2 => (.error e2, [granuleUR, granuleUR.drop (g.dataType ++ ".").length])
      else
        (.error e, [granuleUR])

/-! ### Concrete inputs used by counterexamples and witnesses -/

/-- A mid-search state: 5 total hits declared, 2 records yielded so far,
a scroll token in hand. -/
def search404State : SearchState :=
  { options := { scrollId := some "tok", pageNum := none, pageSize := some 2000 }
    hits := 5
    count := 2 }

/-- A 404 reply carrying no records and no headers. -/
def search404Response : CmrResponse :=
  { status := 404, rdata := [], hitsHeader := none, scrollHeader := none }

/-- A 422 rejection whose error list contains the parent-change message. -/
def parentConflictError : HttpErrorInfo :=
  { status := some 422
    errors := ["#: parent collection cannot be changed"] }

/-- A PUT oracle: the first two PUTs fail with the parent-change conflict,
the third succeeds with 201. -/
def conflictTwicePut : Nat → PutEvent :=
  fun k => if k < 2 then .failure parentConflictError else .success 201

/-- A PUT oracle: the first PUT fails with the parent-change conflict,
every later PUT succeeds with 201. -/
def conflictOncePut : Nat → PutEvent :=
  fun k => if k = 0 then .failure parentConflictError else .success 201

/-- A DELETE oracle that always succeeds. -/
def deleteOk : Nat → Except HttpErrorInfo Unit := fun _ => .ok ()

/-- An HTTP oracle for a scrolled search: 5 hits declared, two pages of
two records (the first carrying scroll token `SC`), then an empty page. -/
def scrollDemoHttp : SearchState → HttpResult := fun st =>
  if st.count = 0 then
    .reply { status := 200, rdata := [1, 2], hitsHeader := some 5, scrollHeader := some "SC" }
  else if st.count = 2 then
    .reply { status := 200, rdata := [3, 4], hitsHeader := some 5, scrollHeader := none }
  else
    .reply { status := 200, rdata := [], hitsHeader := some 5, scrollHeader := none }

/-- A clear-scroll oracle that always succeeds. -/
def releaseOk : String → Except String Unit := fun _ => .ok ()

/-- A clear-scroll oracle that always fails. -/
def releaseFail : String → Except String Unit := fun _ => .error "release refused"

/-- Is a canonical value free of the (case-insensitive) token `now`?  Used
as a side condition for re-normalization: a genuine ISO-8601 timestamp
substitution leaves no such token behind. -/
def nowFree : QVal → Bool
  | .vstr s => !hasNowCI s.data
  | _ => true

/-! ### Helper lemmas: ASCII case mapping -/

theorem charOfNat_toNat (n : Nat) (h : n.isValidChar) : (Char.ofNat n).toNat = n := by
  simp [Char.ofNat, h, Char.ofNatAux, Char.toNat, UInt32.toNat, BitVec.toNat_ofNatLt]

theorem asciiUpper_bounds (c : Char) (h : isAsciiUpper c = true) :
    65 ≤ c.toNat ∧ c.toNat ≤ 90 := by
  simp only [isAsciiUpper, Bool.and_eq_true, decide_eq_true_eq] at h
  exact ⟨h.1, h.2⟩

theorem toNat_lowerCh (c : Char) (h : isAsciiUpper c = true) :
    (lowerCh c).toNat = c.toNat + 32 := by
  have hb := asciiUpper_bounds c h
  have hv : (c.toNat + 32).isValidChar := by unfold Nat.isValidChar; omega
  simp only [lowerCh, h, if_true]
  exact charOfNat_toNat _ hv

theorem not_upper_of_toNat (c : Char) (h1 : 90 < c.toNat) : isAsciiUpper c = false := by
  simp only [isAsciiUpper, Bool.and_eq_true, decide_eq_true_eq]
  by_contra hc
  simp only [Bool.not_eq_false, Bool.and_eq_true, decide_eq_true_eq] at hc
  have h2 : c.toNat ≤ 90 := hc.2
  omega

theorem lowerCh_idem (c : Char) : lowerCh (lowerCh c) = lowerCh c := by
  by_cases h : isAsciiUpper c = true
  · have h1 := toNat_lowerCh c h
    have hb := asciiUpper_bounds c h
    have h2 : isAsciiUpper (lowerCh c) = false := not_upper_of_toNat _ (by omega)
    conv_lhs => rw [lowerCh]
    rw [h2]
    simp
  · have h3 : isAsciiUpper c = false := by simpa using h
    have h4 : lowerCh c = c := by simp [lowerCh, h3]
    rw [h4, h4]

theorem lowerStr_idem (s : String) : lowerStr (lowerStr s) = lowerStr s := by
  have h : List.map lowerCh (List.map lowerCh s.data) = List.map lowerCh s.data := by
    rw [List.map_map]
    exact List.map_congr_left (fun c _ => lowerCh_idem c)
  simpa [lowerStr] using congrArg String.mk h

/-! ### Helper lemmas: strings and `now`-substitution -/

theorem string_mk_ne_empty (c : Char) (l : List Char) : String.mk (c :: l) ≠ "" := by
  intro h
  simpa using congrArg String.data h

theorem append_ne_empty_left (c : Char) (l : List Char) (t : String) :
    String.mk (c :: l) ++ t ≠ "" := by
  intro h
  have h2 : (String.mk (c :: l) ++ t).data = "".data := congrArg String.data h
  have h3 : (String.mk (c :: l) ++ t).data = c :: (l ++ t.data) := rfl
  rw [h3] at h2
  simp at h2

theorem replaceNow_of_not_hasNow (t : List Char) (l : List Char) (h : hasNowCI l = false) :
    replaceNowCI t l = l := by
  induction l using hasNowCI.induct with
  | case1 c1 c2 c3 rest ih =>
    rw [hasNowCI] at h
    simp only [Bool.or_eq_false_iff] at h
    rw [replaceNowCI, if_neg (by simp [h.1])]
    rw [ih h.2]
  | case2 l h2 =>
    cases l with
    | nil => rfl
    | cons a as =>
      cases as with
      | nil => rfl
      | cons b bs =>
        cases bs with
        | nil => rfl
        | cons c cs => exact absurd rfl (h2 a b c cs)

/-! ## Claim C4 — backoff delay -/

/-- **C4** (corrected).  For a failed retryable request with 1-based
attempt number `n ∈ [1, 7]` and jitter `j ∈ [0, 1)`, the backoff
controller delays by `min(maxDelay, ⌊(2^(n-1) + j) · 1000⌋)` milliseconds
— the computed millisecond value is truncated to an integer by the
source's `| 0` coercion, not kept exact as the claim stated — with
`maxDelay` defaulting to 32 000 ms; the client configuration requests 6
retries, and a seventh retry is always refused. -/
theorem c4_backoff_delay (n : ℤ) (j : ℚ) (h1 : 1 ≤ n) (h7 : n ≤ 7)
    (hj0 : 0 ≤ j) (hj1 : j < 1) :
    delayMillis n j 32000 = min 32000 ⌊((2 : ℚ) ^ (n - 1) + j) * 1000⌋
      ∧ createAxiosClientRaxConfig.retry = 6
      ∧ (∀ s : Option Nat, shouldRetryRequest 6 2 6 s = false) := by
  refine ⟨?_, rfl, ?_⟩
  · set q : ℚ := ((2 : ℚ) ^ (n - 1) + j) * 1000 with hq
    have hpow0 : (0 : ℚ) < 2 ^ (n - 1) := zpow_pos (by norm_num) _
    have hpow64 : (2 : ℚ) ^ (n - 1) ≤ 64 := by
      have h6 : n - 1 ≤ 6 := by omega
      calc (2 : ℚ) ^ (n - 1) ≤ 2 ^ (6 : ℤ) := by
            apply zpow_le_zpow_right₀ (by norm_num) h6
        _ = 64 := by norm_num
    have hq0 : (0 : ℚ) ≤ q := by positivity
    have hqlt : q < 65000 := by
      rw [hq]
      nlinarith
    have hfl0 : (0 : ℤ) ≤ ⌊q⌋ := Int.floor_nonneg.mpr hq0
    have hfllt : ⌊q⌋ < 2 ^ 31 := by
      have hx : ⌊q⌋ < 65000 := by
        apply Int.floor_lt.mpr
        norm_num
        exact hqlt
      omega
    have htrunc : truncRat q = ⌊q⌋ := by simp [truncRat, hq0]
    have hwrap : toInt32 ⌊q⌋ = ⌊q⌋ := by
      unfold toInt32
      have hmod : (⌊q⌋ + 2 ^ 31) % 2 ^ 32 = ⌊q⌋ + 2 ^ 31 :=
        Int.emod_eq_of_lt (by omega) (by omega)
      omega
    unfold delayMillis exponentialDelayMillis bitOrZero
    rw [← hq, htrunc, hwrap, min_comm]
  · intro s
    cases s <;> simp [shouldRetryRequest]

/-- Witness for `c4_backoff_delay` at `n = 3`, `j = 1/4`. -/
theorem c4_backoff_delay_witness :
    (1 : ℤ) ≤ 3 ∧ (3 : ℤ) ≤ 7 ∧ (0 : ℚ) ≤ 1 / 4 ∧ (1 / 4 : ℚ) < 1 ∧
      delayMillis 3 (1 / 4) 32000 = min 32000 ⌊((2 : ℚ) ^ ((3 : ℤ) - 1) + 1 / 4) * 1000⌋ :=
  ⟨by norm_num, by norm_num, by norm_num, by norm_num,
    (c4_backoff_delay 3 (1 / 4) (by norm_num) (by norm_num) (by norm_num) (by norm_num)).1⟩

/-- **C4** counterexample.  At attempt 1 with jitter `1/2000` the code
delays 1000 ms, whereas the claimed exact value
`min(32000, (2^0 + 1/2000)·1000)` is 1000.5 ms. -/
theorem c4_backoff_delay_counterexample :
    ((delayMillis 1 (1 / 2000) 32000 : ℚ)) ≠
      min 32000 (((2 : ℚ) ^ ((1 : ℤ) - 1) + 1 / 2000) * 1000) := by
  norm_num [delayMillis, exponentialDelayMillis, bitOrZero, truncRat, toInt32]

/-! ## Claim C5 — byte-size conversion -/

/-- **C5** (corrected).  For every *nonzero* declared size `s` with unit
`u ∈ {KB, MB, GB, TB, PB}` (and no `SizeInBytes` field), the mapper
computes `round(s · 1024^k)` with `k = 1…5` respectively, where `round`
is rounding to the nearest integer (within 1/2 of the exact value, not a
truncation); in particular 0.501126289 MB converts to exactly 525 469
bytes.  A declared size of 0 is falsy in the source and yields no byte
size at all (the original claim's universal quantification fails there,
see the counterexample). -/
theorem c5_size_conversion (s : ℚ) (hs : s ≠ 0) (u : String) (k : ℕ)
    (hu : (u, k) ∈ [("KB", 1), ("MB", 2), ("GB", 3), ("TB", 4), ("PB", 5)]) :
    sizeInBytes none (some s) (some u) = some ((jsRound (s * 1024 ^ k) : Int) : ℚ)
      ∧ (∀ q : ℚ, |(jsRound q : ℚ) - q| ≤ 1 / 2)
      ∧ sizeInBytes none (some (501126289 / 1000000000 : ℚ)) (some "MB") = some 525469 := by
  refine ⟨?_, ?_, ?_⟩
  · fin_cases hu <;> simp [sizeInBytes, factorOf, unitFactor, hs] <;> norm_num
  · intro q
    rw [abs_le]
    constructor
    · have h := Int.lt_floor_add_one (q + 1 / 2)
      unfold jsRound
      linarith
    · have h := Int.floor_le (q + 1 / 2)
      unfold jsRound
      linarith
  · norm_num [sizeInBytes, factorOf, unitFactor, jsRound]

/-- Witness for `c5_size_conversion` at `s = 501126289/10^9`, `u = MB`. -/
theorem c5_size_conversion_witness :
    (501126289 / 1000000000 : ℚ) ≠ 0 ∧
      ("MB", 2) ∈ [("KB", 1), ("MB", 2), ("GB", 3), ("TB", 4), ("PB", 5)] ∧
      sizeInBytes none (some (501126289 / 1000000000 : ℚ)) (some "MB") =
        some ((jsRound ((501126289 / 1000000000 : ℚ) * 1024 ^ 2) : Int) : ℚ) :=
  ⟨by norm_num, by simp,
    (c5_size_conversion (501126289 / 1000000000) (by norm_num) "MB" 2 (by simp)).1⟩

/-- **C5** counterexample.  A declared size of 0 MB yields no byte size
(`undefined`), not the claimed `round(0 · 1024^2) = 0`. -/
theorem c5_size_conversion_counterexample :
    sizeInBytes none (some 0) (some "MB") = none
      ∧ (jsRound ((0 : ℚ) * 1024 ^ 2) : ℚ) = 0
      ∧ sizeInBytes none (some 0) (some "MB") ≠
          some ((jsRound ((0 : ℚ) * 1024 ^ 2) : Int) : ℚ) := by
  refine ⟨by simp [sizeInBytes], by norm_num [jsRound], ?_⟩
  simp [sizeInBytes]

theorem replaceNow_nil (t : List Char) : replaceNowCI t [] = [] := rfl

theorem canonical_single_temporal (t : String) (v : QVal) (hv : qtruthy v = true)
    (hnm : isNotMissing (replaceTemporalVal t v) = true) :
    toCanonicalQueryParams t [("temporal", v)] = [("temporal", replaceTemporalVal t v)] := by
  have hkey : camelCaseKey "temporal" = "temporal" := by decide
  have h1 : fromPairs [("temporal", v)] = [("temporal", v)] := rfl
  have h2 : propTruthy "scroll" [("temporal", v)] = false := by
    simp [propTruthy, List.lookup]
  have h3 : propTruthy "temporal" [("temporal", v)] = qtruthy v := by
    simp [propTruthy, List.lookup]
  have h4 : setTemporal t [("temporal", v)] = [("temporal", replaceTemporalVal t v)] := by
    simp [setTemporal]
  unfold toCanonicalQueryParams applyScroll applyTemporal
  simp only [List.map, hkey, h1, h2, Bool.false_eq_true, if_false, h3, hv, if_true, h4]
  simp [pickByNotMissing, hnm]

theorem replaceNow_p56d (t : String) : replaceNowStr t "P56D/now" = "P56D/" ++ t := by
  unfold replaceNowStr
  show String.mk (replaceNowCI t.data ['P', '5', '6', 'D', '/', 'n', 'o', 'w']) = "P56D/" ++ t
  rw [replaceNowCI, if_neg (by decide), replaceNowCI, if_neg (by decide),
    replaceNowCI, if_neg (by decide), replaceNowCI, if_neg (by decide),
    replaceNowCI, if_neg (by decide), replaceNowCI, if_pos (by decide), replaceNow_nil]
  apply congrArg String.mk
  simp

theorem replaceNow_nownow (t : String) : replaceNowStr t "now/now" = t ++ "/" ++ t := by
  unfold replaceNowStr
  show String.mk (replaceNowCI t.data ['n', 'o', 'w', '/', 'n', 'o', 'w']) = t ++ "/" ++ t
  rw [replaceNowCI, if_pos (by decide), replaceNowCI, if_neg (by decide),
    replaceNowCI, if_pos (by decide), replaceNow_nil]
  apply congrArg String.mk
  simp

theorem replaceNow_mixedcase (t : String) : replaceNowStr t "NOW/Now" = t ++ "/" ++ t := by
  unfold replaceNowStr
  show String.mk (replaceNowCI t.data ['N', 'O', 'W', '/', 'N', 'o', 'w']) = t ++ "/" ++ t
  rw [replaceNowCI, if_pos (by decide), replaceNowCI, if_neg (by decide),
    replaceNowCI, if_pos (by decide), replaceNow_nil]
  apply congrArg String.mk
  simp

theorem sandwich_ne_empty (t : String) : t ++ "/" ++ t ≠ "" := by
  intro h
  have h2 := congrArg String.data h
  have h3 : (t ++ "/" ++ t).data = (t.data ++ ['/']) ++ t.data := rfl
  rw [h3] at h2
  simp at h2

/-! ## Claim C6 — `temporal` `now` substitution -/

/-- **C6** (confirmed).  With the ambient clock reading `nowISO` (the
source computes `new Date(Date.now()).toISOString()` exactly once per
call, before the global replacement), canonicalization replaces every
case-insensitive occurrence of `now` in the `temporal` parameter with
that single reading: `P56D/now ↦ P56D/T`, `now/now ↦ T/T` and
`NOW/Now ↦ T/T` with the same `T` in both positions. -/
theorem c6_temporal_now_substitution (nowISO : String) :
    toCanonicalQueryParams nowISO [("temporal", .vstr "P56D/now")] =
        [("temporal", .vstr ("P56D/" ++ nowISO))]
      ∧ toCanonicalQueryParams nowISO [("temporal", .vstr "now/now")] =
        [("temporal", .vstr (nowISO ++ "/" ++ nowISO))]
      ∧ toCanonicalQueryParams nowISO [("temporal", .vstr "NOW/Now")] =
        [("temporal", .vstr (nowISO ++ "/" ++ nowISO))] := by
  refine ⟨?_, ?_, ?_⟩
  · rw [canonical_single_temporal nowISO (.vstr "P56D/now") (by decide)
      (by simp [replaceTemporalVal, isNotMissing, replaceNow_p56d,
        append_ne_empty_left 'P' ['5', '6', 'D', '/'] nowISO])]
    simp [replaceTemporalVal, replaceNow_p56d]
  · rw [canonical_single_temporal nowISO (.vstr "now/now") (by decide)
      (by simp [replaceTemporalVal, isNotMissing, replaceNow_nownow, sandwich_ne_empty nowISO])]
    simp [replaceTemporalVal, replaceNow_nownow]
  · rw [canonical_single_temporal nowISO (.vstr "NOW/Now") (by decide)
      (by simp [replaceTemporalVal, isNotMissing, replaceNow_mixedcase, sandwich_ne_empty nowISO])]
    simp [replaceTemporalVal, replaceNow_mixedcase]

/-! ## Claim C8 — `json` response decoding -/

/-- **C8** (corrected).  Under the `json` format the decoder returns the
value at `feed.entry` when that path exists; when it does not, it returns
the *parsed body unchanged* — not an empty sequence as the claim stated
(downstream code then sees no `length` and treats the page as empty). -/
theorem c8_json_decoder (v : JValue) (fs : List (String × JValue)) (f w : JValue) :
    (v = .jobj fs → fs.lookup "feed" = some f → jlookup "entry" f = some w →
        transformJSONResponse v = w)
      ∧ (hasFeedEntry v = false → transformJSONResponse v = v) := by
  constructor
  · intro hv hf he
    subst hv
    have hjf : jlookup "feed" (JValue.jobj fs) = some f := by simpa [jlookup] using hf
    have hfe : hasFeedEntry (.jobj fs) = true := by
      unfold hasFeedEntry
      rw [hjf]
      simp [he]
    unfold transformJSONResponse
    simp [hfe, hjf, he]
  · intro hno
    simp [transformJSONResponse, hno]

/-- Witness for `c8_json_decoder`: a body with a `feed.entry` array
decodes to that array, and a body without the path is returned unchanged. -/
theorem c8_json_decoder_witness :
    transformJSONResponse (.jobj [("feed", .jobj [("entry", .jarr [.jnum 1])])]) =
        .jarr [.jnum 1]
      ∧ transformJSONResponse (.jobj [("a", .jnum 1)]) = .jobj [("a", .jnum 1)] :=
  ⟨(c8_json_decoder (.jobj [("feed", .jobj [("entry", .jarr [.jnum 1])])])
      [("feed", .jobj [("entry", .jarr [.jnum 1])])] (.jobj [("entry", .jarr [.jnum 1])])
      (.jarr [.jnum 1])).1 rfl rfl rfl,
    (c8_json_decoder (.jobj [("a", .jnum 1)]) [] .jnull .jnull).2 rfl⟩

/-- **C8** counterexample.  A parsed body without a `feed.entry` path —
here `{"a": 1}` — is returned as is, which is not the empty record
sequence the claim requires. -/
theorem c8_json_decoder_counterexample :
    transformJSONResponse (.jobj [("a", .jnum 1)]) = .jobj [("a", .jnum 1)]
      ∧ transformJSONResponse (.jobj [("a", .jnum 1)]) ≠ .jarr [] := by
  constructor
  · rfl
  · intro h
    have h2 : JValue.jobj [("a", .jnum 1)] = JValue.jarr [] := by
      calc JValue.jobj [("a", .jnum 1)] = transformJSONResponse (.jobj [("a", .jnum 1)]) := rfl
        _ = .jarr [] := h
    exact JValue.noConfusion h2

/-! ## Claim C1 — 404 handling in the paged search -/

/-- **C1** (corrected).  On a 404 reply (which the client's
`validateStatus` accepts, so it can never surface as a request error) the
search step *never* fails: it treats the 404 as an empty page and
continues — advancing the cumulative count by
`min(pageSize, totalHits − count)` — precisely when the `totalHits`
reading carried so far (the reply's own nonzero `cmr-hits` header, else
the value from earlier pages) is positive, *regardless of whether the
cumulative count has reached `totalHits`*; with no positive `totalHits`
reading the 404 ends the search normally. -/
theorem c1_paged_404 (st : SearchState) (r : CmrResponse) (h404 : r.status = 404) :
    (∀ e sid, pagedSearch st (.reply r) ≠ .failed e sid)
      ∧ (0 < effHits r st.hits →
          pagedSearch st (.reply r) =
            .next []
              { options :=
                  if strTruthy (jsOrStr st.options.scrollId r.scrollHeader) then
                    { st.options with scrollId := jsOrStr st.options.scrollId r.scrollHeader }
                  else { st.options with pageNum := some (st.options.pageNum.getD 1 + 1) }
                hits := effHits r st.hits
                count := st.count +
                  min (st.options.pageSize.getD 10) ((effHits r st.hits : Int) - st.count) })
      ∧ (effHits r st.hits = 0 →
          pagedSearch st (.reply r) = .closed (jsOrStr st.options.scrollId r.scrollHeader)) := by
  have hv4 : validStatus 404 = true := by decide
  refine ⟨?_, ?_, ?_⟩
  · intro e sid
    by_cases hh : 0 < effHits r st.hits
    · simp [pagedSearch, hv4, h404, hh]
    · simp [pagedSearch, hv4, h404, hh]
  · intro hh
    simp [pagedSearch, hv4, h404, hh]
  · intro hh
    simp [pagedSearch, hv4, h404, hh]

/-- Witness for `c1_paged_404` at the concrete mid-search state (5 hits
declared, 2 yielded) receiving a bare 404. -/
theorem c1_paged_404_witness :
    search404Response.status = 404 ∧ 0 < effHits search404Response search404State.hits ∧
      pagedSearch search404State (.reply search404Response) =
        .next []
          { options :=
              if strTruthy (jsOrStr search404State.options.scrollId search404Response.scrollHeader) then
                { search404State.options with
                    scrollId := jsOrStr search404State.options.scrollId search404Response.scrollHeader }
              else
                { search404State.options with
                    pageNum := some (search404State.options.pageNum.getD 1 + 1) }
            hits := effHits search404Response search404State.hits
            count := search404State.count +
              min (search404State.options.pageSize.getD 10)
                ((effHits search404Response search404State.hits : Int) - search404State.count) } :=
  ⟨rfl, by decide,
    (c1_paged_404 search404State search404Response rfl).2.1 (by decide)⟩

/-- **C1** counterexample.  At the state with `totalHits = 5` and only 2
records yielded (`cumulativeCount < totalHits`), a 404 reply is *not* a
hard failure: the step yields an empty page and continues, with the
count advanced to 5. -/
theorem c1_paged_404_counterexample :
    pagedSearch search404State (.reply search404Response) =
        .next []
          { options := { scrollId := some "tok", pageNum := none, pageSize := some 2000 }
            hits := 5
            count := 5 }
      ∧ search404State.count < (search404State.hits : Int) ∧ 0 < search404State.hits := by
  refine ⟨by decide, by decide, by decide⟩

/-! ## Claim C7 — scroll release -/

/-- **C7** (confirmed).  Over any run of the search loop: the clear-scroll
request is issued at most once, only with a (truthy) scroll token in
hand, and only when the run actually terminated (exhaustion or error, not
fuel exhaustion); and the outcome of the clear-scroll request is
irrelevant to the run — the records yielded and the primary outcome are
identical under any two release oracles (a release failure is caught and
only logged). -/
theorem c7_scroll_release (http : SearchState → HttpResult)
    (rel rel2 : String → Except String Unit) (fuel : Nat) (st : SearchState) :
    (runPagedSearch http rel fuel st).releases.length ≤ 1
      ∧ (∀ id ∈ (runPagedSearch http rel fuel st).releases, id ≠ "")
      ∧ ((runPagedSearch http rel fuel st).releases ≠ [] →
          (runPagedSearch http rel fuel st).outcome ≠ .fuelOut)
      ∧ (runPagedSearch http rel fuel st).records = (runPagedSearch http rel2 fuel st).records
      ∧ (runPagedSearch http rel fuel st).outcome =
          (runPagedSearch http rel2 fuel st).outcome := by
  induction fuel generalizing st with
  | zero => simp [runPagedSearch]
  | succ n ih =>
    cases hstep : pagedSearch st (http st) with
    | next page st2 =>
      have ih2 := ih st2
      simp only [runPagedSearch, hstep]
      exact ⟨ih2.1, ih2.2.1, ih2.2.2.1, by rw [ih2.2.2.2.1], ih2.2.2.2.2⟩
    | closed sid =>
      cases sid with
      | none => simp [runPagedSearch, hstep, clearScrollCalls]
      | some id =>
        by_cases hid : id = ""
        · simp [runPagedSearch, hstep, clearScrollCalls, hid]
        · simp [runPagedSearch, hstep, clearScrollCalls, hid]
    | failed e sid =>
      cases sid with
      | none => simp [runPagedSearch, hstep, clearScrollCalls]
      | some id =>
        by_cases hid : id = ""
        · simp [runPagedSearch, hstep, clearScrollCalls, hid]
        · simp [runPagedSearch, hstep, clearScrollCalls, hid]

/-- Witness for `c7_scroll_release`: the concrete scrolled search (2+2
records, then exhaustion) under an always-failing release oracle issues
exactly one release, for token `SC`, and its records and outcome match
the run under an always-succeeding release oracle. -/
theorem c7_scroll_release_witness :
    (runPagedSearch scrollDemoHttp releaseFail 10
          { options := { pageSize := some 2000 }, hits := 0, count := 0 }).releases = ["SC"]
      ∧ (runPagedSearch scrollDemoHttp releaseFail 10
            { options := { pageSize := some 2000 }, hits := 0, count := 0 }).outcome ≠ .fuelOut
      ∧ (runPagedSearch scrollDemoHttp releaseFail 10
            { options := { pageSize := some 2000 }, hits := 0, count := 0 }).records =
          (runPagedSearch scrollDemoHttp releaseOk 10
              { options := { pageSize := some 2000 }, hits := 0, count := 0 }).records :=
  ⟨by decide,
    (c7_scroll_release scrollDemoHttp releaseFail releaseOk 10
        { options := { pageSize := some 2000 }, hits := 0, count := 0 }).2.2.1
      (by decide),
    (c7_scroll_release scrollDemoHttp releaseFail releaseOk 10
        { options := { pageSize := some 2000 }, hits := 0, count := 0 }).2.2.2.1⟩

/-! ## Claim C2 — publish conflict resolver -/

theorem publishLoop_delete_final (put : Nat → PutEvent) (del : Nat → Except HttpErrorInfo Unit)
    (de : HttpErrorInfo) :
    ∀ fuel p d a, (publishLoop put del fuel p d a).outcome = .failedDelete de →
      ∃ pre, (publishLoop put del fuel p d a).events = pre ++ [.delEv] := by
  intro fuel
  induction fuel with
  | zero => intro p d a h; simp [publishLoop] at h
  | succ n ih =>
    intro p d a h
    cases hput : put p with
    | success s => simp [publishLoop, hput] at h
    | failure e =>
      by_cases hc : isParentChangeError e = true
      · cases hdel : del d with
        | error de2 =>
          refine ⟨[.putEv], ?_⟩
          simp [publishLoop, hput, hc, hdel]
        | ok u =>
          simp only [publishLoop, hput, hc, if_true, hdel] at h ⊢
          obtain ⟨pre, hpre⟩ := ih (p + 1) (d + 1) (a + 1) h
          exact ⟨.putEv :: .delEv :: pre, by simp [hpre]⟩
      · by_cases hr : shouldRetryRequest 6 2 a e.status = true
        · simp only [publishLoop, hput, hc, if_false, hr, if_true] at h ⊢
          obtain ⟨pre, hpre⟩ := ih (p + 1) d (a + 1) h
          exact ⟨.putEv :: pre, by simp [hpre]⟩
        · simp [publishLoop, hput, hc, hr] at h

theorem publishLoop_conflict_unbounded (put : Nat → PutEvent)
    (del : Nat → Except HttpErrorInfo Unit) (e : HttpErrorInfo)
    (hp : ∀ k, put k = .failure e) (hc : isParentChangeError e = true)
    (hd : ∀ k, del k = .ok ()) :
    ∀ fuel p d a, publishLoop put del fuel p d a =
      { outcome := .fuelOut, events := conflictCycle fuel } := by
  intro fuel
  induction fuel with
  | zero => intro p d a; simp [publishLoop, conflictCycle]
  | succ n ih =>
    intro p d a
    simp [publishLoop, hp p, hc, hd d, conflictCycle, ih (p + 1) (d + 1) (a + 1)]

/-- **C2** (corrected).  A PUT rejected with 422 and a
parent-collection-cannot-be-changed error message triggers a DELETE of
the granule followed by a re-issued PUT, and a successful re-PUT ends the
operation; if the DELETE itself fails, the whole operation fails with the
DELETE's error and no further request — in particular no PUT — is issued.
However, the delete-then-republish cycle is *not* limited to one: the
custom `shouldRetry` predicate exempts parent-change conflicts from the
retry-count check, so the cycle repeats for every conflict response (see
the counterexample for a second conflict-driven retry). -/
theorem c2_publish_conflict (put : Nat → PutEvent) (del : Nat → Except HttpErrorInfo Unit)
    (e de : HttpErrorInfo) (s : Nat) (fuel p d a : Nat) :
    ((publishLoop put del fuel p d a).outcome = .failedDelete de →
        ∃ pre, (publishLoop put del fuel p d a).events = pre ++ [.delEv])
      ∧ (isParentChangeError e = true → put p = .failure e → del d = .ok () →
          put (p + 1) = .success s →
          publishLoop put del (fuel + 2) p d a =
            { outcome := .published s, events := [.putEv, .delEv, .putEv] })
      ∧ (isParentChangeError e = true → put p = .failure e → del d = .error de →
          publishLoop put del (fuel + 1) p d a =
            { outcome := .failedDelete de, events := [.putEv, .delEv] })
      ∧ ((∀ k, put k = .failure e) → isParentChangeError e = true → (∀ k, del k = .ok ()) →
          publishLoop put del fuel p d a =
            { outcome := .fuelOut, events := conflictCycle fuel }) := by
  refine ⟨publishLoop_delete_final put del de fuel p d a, ?_, ?_, ?_⟩
  · intro hc hp hd hp2
    simp [publishLoop, hp, hc, hd, hp2]
  · intro hc hp hd
    simp [publishLoop, hp, hc, hd]
  · intro hp hc hd
    exact publishLoop_conflict_unbounded put del e hp hc hd fuel p d a

/-- Witness for `c2_publish_conflict`: one conflict, successful DELETE,
successful re-PUT → published after PUT-DELETE-PUT; and with a failing
DELETE the operation fails with the DELETE's error after PUT-DELETE. -/
theorem c2_publish_conflict_witness :
    isParentChangeError parentConflictError = true
      ∧ conflictOncePut 0 = .failure parentConflictError
      ∧ deleteOk 0 = .ok ()
      ∧ conflictOncePut 1 = .success 201
      ∧ publishLoop conflictOncePut deleteOk 3 0 0 0 =
          { outcome := .published 201, events := [.putEv, .delEv, .putEv] }
      ∧ publishLoop conflictOncePut (fun _ => .error { status := some 500, errors := [] }) 3 0 0 0 =
          { outcome := .failedDelete { status := some 500, errors := [] },
            events := [.putEv, .delEv] } :=
  ⟨by decide, by decide, rfl, by decide,
    (c2_publish_conflict conflictOncePut deleteOk parentConflictError
        { status := some 500, errors := [] } 201 1 0 0 0).2.1
      (by decide) (by decide) rfl (by decide),
    (c2_publish_conflict conflictOncePut (fun _ => .error { status := some 500, errors := [] })
        parentConflictError { status := some 500, errors := [] } 201 2 0 0 0).2.2.1
      (by decide) (by decide) rfl⟩

/-- **C2** counterexample.  When the re-issued PUT fails with the *same*
parent-change conflict, the resolver performs a *second* conflict-driven
DELETE + PUT cycle (five requests: PUT, DELETE, PUT, DELETE, PUT) and
then succeeds — contradicting "re-issues the original PUT exactly once,
with no second conflict-driven retry ever attempted". -/
theorem c2_publish_conflict_counterexample :
    publishLoop conflictTwicePut deleteOk 10 0 0 0 =
      { outcome := .published 201,
        events := [.putEv, .delEv, .putEv, .delEv, .putEv] } := by
  decide

/-! ## Claim C3 — duplicate filter -/

/-- **C3** (confirmed).  Over any candidate stream reaching the duplicate
filter: under `skip` every candidate's id is submitted to the external
"already recorded" predicate, recorded candidates are dropped silently
and all others yielded; under `error` candidates are consulted in stream
order until the first recorded one, which aborts the whole discovery with
an error — candidates before it are yielded, nothing at or after it is
observed downstream (with a clean stream all candidates are consulted and
yielded); under `replace`/`version` every candidate is yielded and the
predicate is never consulted. -/
theorem c3_duplicate_filter (recorded : String → Bool) (gs : List DGranule) :
    applyDupFilter recorded "skip" gs =
        ((gs.filter (fun g => !recorded g.granuleId), none), gs.map (·.granuleId))
      ∧ (∀ h, h = "replace" ∨ h = "version" →
          applyDupFilter recorded h gs = ((gs, none), []))
      ∧ ((∀ g ∈ gs, recorded g.granuleId = false) →
          applyDupFilter recorded "error" gs = ((gs, none), gs.map (·.granuleId)))
      ∧ (∀ pre g suf, gs = pre ++ g :: suf → (∀ p ∈ pre, recorded p.granuleId = false) →
          recorded g.granuleId = true →
          applyDupFilter recorded "error" gs =
            ((pre, some ("Duplicate granule found: " ++ g.granuleId)),
              (pre ++ [g]).map (·.granuleId))) := by
  refine ⟨?_, ?_, ?_, ?_⟩
  · induction gs with
    | nil => simp [applyDupFilter]
    | cons g gs ih =>
      by_cases hr : recorded g.granuleId = true
      · simp [applyDupFilter, makeIsNotDuplicateFn, checkGranuleHasNoDuplicate, hr, ih]
      · simp only [Bool.not_eq_true] at hr
        simp [applyDupFilter, makeIsNotDuplicateFn, checkGranuleHasNoDuplicate, hr, ih]
  · intro h hh
    induction gs with
    | nil => rcases hh with h1 | h1 <;> subst h1 <;> simp [applyDupFilter]
    | cons g gs ih =>
      rcases hh with h1 | h1 <;> subst h1 <;>
        simp [applyDupFilter, makeIsNotDuplicateFn, ih]
  · intro hclean
    induction gs with
    | nil => simp [applyDupFilter]
    | cons g gs ih =>
      have hg : recorded g.granuleId = false := hclean g (by simp)
      have ih2 := ih (fun x hx => hclean x (by simp [hx]))
      simp [applyDupFilter, makeIsNotDuplicateFn, checkGranuleHasNoDuplicate, hg, ih2]
  · intro pre g suf hsplit hclean hdup
    subst hsplit
    induction pre with
    | nil =>
      simp [applyDupFilter, makeIsNotDuplicateFn, checkGranuleHasNoDuplicate, hdup]
    | cons p ps ih =>
      have hp : recorded p.granuleId = false := hclean p (by simp)
      have ih2 := ih (fun x hx => hclean x (by simp [hx]))
      simp [applyDupFilter, makeIsNotDuplicateFn, checkGranuleHasNoDuplicate, hp, ih2]

/-- Witness for `c3_duplicate_filter` on the spec's scenario: a predicate
recording exactly `G1` over candidates `[G1, G2]` — `skip` yields exactly
`[G2]`, `error` aborts at `G1` with `G2` never observed, `replace` yields
both without consulting the predicate. -/
theorem c3_duplicate_filter_witness :
    applyDupFilter (fun s => s == "G1") "skip" [⟨"G1"⟩, ⟨"G2"⟩] =
        (([⟨"G2"⟩], none), ["G1", "G2"])
      ∧ applyDupFilter (fun s => s == "G1") "replace" [⟨"G1"⟩, ⟨"G2"⟩] =
          (([⟨"G1"⟩, ⟨"G2"⟩], none), [])
      ∧ applyDupFilter (fun s => s == "G1") "error" [⟨"G1"⟩, ⟨"G2"⟩] =
          (([], some ("Duplicate granule found: " ++ "G1")), ["G1"]) :=
  ⟨by rw [(c3_duplicate_filter (fun s => s == "G1") [⟨"G1"⟩, ⟨"G2"⟩]).1]; decide,
    by rw [(c3_duplicate_filter (fun s => s == "G1") [⟨"G1"⟩, ⟨"G2"⟩]).2.1
        "replace" (Or.inl rfl)],
    by
      rw [(c3_duplicate_filter (fun s => s == "G1") [⟨"G1"⟩, ⟨"G2"⟩]).2.2.2
        [] ⟨"G1"⟩ [⟨"G2"⟩] rfl (by simp) (by decide)]
      decide⟩

/-! ## Claim C10 — publish Lambda handler -/

/-- **C10** (confirmed).  Every successful run of the publish handler
returns exactly one granule with `published = true`; with `CMR_DRY_RUN`
unset or `"true"` (and generally whenever the dry-run default applies) no
publish request is ever issued — the metadata is only validated — and the
returned granule is the input granule with only `published` flipped to
`true` (in particular its `cmrLink` is untouched). -/
theorem c10_publish_handler (cmrDryRun : Option String) (cmrHost : String)
    (validate : Except HttpErrorInfo Unit)
    (publish : String → Except HttpErrorInfo ConceptResp)
    (granuleUR : String) (g : PGranule) :
    (∀ out,
        (publishGranuleHandler cmrDryRun cmrHost validate publish granuleUR g).1 = .ok out →
        ∃ g2, out = [g2] ∧ g2.published = true)
      ∧ ((cmrDryRun = none ∨ cmrDryRun = some "true") → dryRunEnabled cmrDryRun = true)
      ∧ (dryRunEnabled cmrDryRun = true →
          (publishGranuleHandler cmrDryRun cmrHost validate publish granuleUR g).2 = []
            ∧ ∀ out,
                (publishGranuleHandler cmrDryRun cmrHost validate publish granuleUR g).1 =
                  .ok out →
                out = [{ g with published := true }]) := by
  refine ⟨?_, ?_, ?_⟩
  · intro out hout
    unfold publishGranuleHandler at hout
    split at hout
    · split at hout
      · simp at hout
      · simp at hout
        exact ⟨{ g with published := true }, hout.symm, rfl⟩
    · split at hout
      · simp at hout
        exact ⟨_, hout.symm, rfl⟩
      · split at hout
        · split at hout
          · simp at hout
            exact ⟨_, hout.symm, rfl⟩
          · simp at hout
        · simp at hout
  · intro hdef
    rcases hdef with h1 | h1 <;> subst h1 <;> decide
  · intro hdry
    unfold publishGranuleHandler
    rw [if_pos hdry]
    cases validate with
    | error e => exact ⟨rfl, fun out hout => by simp at hout⟩
    | ok u =>
      refine ⟨rfl, fun out hout => ?_⟩
      simp at hout
      exact hout.symm

/-- Witness for `c10_publish_handler`: with `CMR_DRY_RUN` unset, a
granule with a stale `cmrLink` comes back published, link untouched, and
no publish call was made. -/
theorem c10_publish_handler_witness :
    dryRunEnabled none = true
      ∧ (publishGranuleHandler none "https://cmr" (.ok ())
            (fun _ => .error { status := some 500, errors := [] }) "UR"
            { dataType := "DT", published := false, cmrLink := none }).2 = []
      ∧ (publishGranuleHandler none "https://cmr" (.ok ())
            (fun _ => .error { status := some 500, errors := [] }) "UR"
            { dataType := "DT", published := false, cmrLink := none }).1 =
          .ok [{ dataType := "DT", published := true, cmrLink := none }] :=
  ⟨by decide,
    ((c10_publish_handler none "https://cmr" (.ok ())
          (fun _ => .error { status := some 500, errors := [] }) "UR"
          { dataType := "DT", published := false, cmrLink := none }).2.2 (by decide)).1,
    by
      have h := ((c10_publish_handler none "https://cmr" (.ok ())
            (fun _ => .error { status := some 500, errors := [] }) "UR"
            { dataType := "DT", published := false, cmrLink := none }).2.2 (by decide)).2
      rfl⟩

/-! ## Claim C9 — normalizer idempotence: association-list lemmas -/

theorem lookup_none_of_not_mem_keys (k : String) (m : QMap)
    (h : k ∉ m.map Prod.fst) : m.lookup k = none := by
  induction m with
  | nil => rfl
  | cons p ps ih =>
    simp only [List.map_cons, List.mem_cons] at h
    push_neg at h
    have hne : (k == p.1) = false := by
      simp [h.1]
    simp [List.lookup, hne, ih h.2]

theorem mem_of_lookup_eq_some (k : String) (v : QVal) (m : QMap)
    (h : m.lookup k = some v) : (k, v) ∈ m := by
  induction m with
  | nil => simp [List.lookup] at h
  | cons p ps ih =>
    rw [List.lookup] at h
    by_cases he : (k == p.1) = true
    · have hk : k = p.1 := by simpa using he
      rw [he] at h
      simp only [Option.some.injEq] at h
      have hp : (k, v) = p := by
        rw [hk, ← h]
      rw [hp]
      exact List.mem_cons_self p ps
    · rw [Bool.not_eq_true] at he
      rw [he] at h
      exact List.mem_cons_of_mem _ (ih h)

theorem lookup_eq_of_mem_nodup (k : String) (v : QVal) (m : QMap)
    (hn : (m.map Prod.fst).Nodup) (hm : (k, v) ∈ m) : m.lookup k = some v := by
  induction m with
  | nil => simp at hm
  | cons p ps ih =>
    simp only [List.map_cons, List.nodup_cons] at hn
    rcases List.mem_cons.mp hm with h1 | h1
    · rw [← h1]
      simp [List.lookup]
    · have hk : (k == p.1) = false := by
        rw [beq_eq_false_iff_ne]
        intro hkk
        exact hn.1 (hkk ▸ List.mem_map.mpr ⟨(k, v), h1, rfl⟩)
      rw [List.lookup, hk]
      exact ih hn.2 h1

theorem mem_keys_fromPairsAux (seen : List String) (l : QMap) (k : String)
    (h : k ∈ (fromPairsAux seen l).map Prod.fst) : k ∈ l.map Prod.fst := by
  induction l generalizing seen with
  | nil => simp [fromPairsAux] at h
  | cons p ps ih =>
    rw [show fromPairsAux seen (p :: ps) =
        if p.1 ∈ seen then fromPairsAux seen ps
        else (p.1, ((ps.reverse.lookup p.1).getD p.2)) :: fromPairsAux (p.1 :: seen) ps
      from by cases p; rfl] at h
    by_cases hseen : p.1 ∈ seen
    · rw [if_pos hseen] at h
      exact List.mem_cons_of_mem _ (ih seen h)
    · rw [if_neg hseen] at h
      simp only [List.map_cons, List.mem_cons] at h
      rcases h with h1 | h1
      · simp [h1]
      · exact List.mem_cons_of_mem _ (ih _ h1)

theorem fromPairsAux_keys_not_seen (seen : List String) (l : QMap) (k : String)
    (h : k ∈ (fromPairsAux seen l).map Prod.fst) : k ∉ seen := by
  induction l generalizing seen with
  | nil => simp [fromPairsAux] at h
  | cons p ps ih =>
    rw [show fromPairsAux seen (p :: ps) =
        if p.1 ∈ seen then fromPairsAux seen ps
        else (p.1, ((ps.reverse.lookup p.1).getD p.2)) :: fromPairsAux (p.1 :: seen) ps
      from by cases p; rfl] at h
    by_cases hseen : p.1 ∈ seen
    · rw [if_pos hseen] at h
      exact ih seen h
    · rw [if_neg hseen] at h
      simp only [List.map_cons, List.mem_cons] at h
      rcases h with h1 | h1
      · subst h1
        exact hseen
      · intro hk
        exact ih (p.1 :: seen) h1 (List.mem_cons_of_mem _ hk)

theorem fromPairsAux_keys_nodup (seen : List String) (l : QMap) :
    ((fromPairsAux seen l).map Prod.fst).Nodup := by
  induction l generalizing seen with
  | nil => simp [fromPairsAux]
  | cons p ps ih =>
    rw [show fromPairsAux seen (p :: ps) =
        if p.1 ∈ seen then fromPairsAux seen ps
        else (p.1, ((ps.reverse.lookup p.1).getD p.2)) :: fromPairsAux (p.1 :: seen) ps
      from by cases p; rfl]
    by_cases hseen : p.1 ∈ seen
    · rw [if_pos hseen]
      exact ih seen
    · rw [if_neg hseen]
      simp only [List.map_cons, List.nodup_cons]
      refine ⟨?_, ih (p.1 :: seen)⟩
      intro hmem
      exact fromPairsAux_keys_not_seen _ _ _ hmem (by simp)

theorem fromPairs_keys_nodup (l : QMap) : ((fromPairs l).map Prod.fst).Nodup :=
  fromPairsAux_keys_nodup [] l

theorem fromPairsAux_eq_self (seen : List String) (l : QMap)
    (hd : (l.map Prod.fst).Nodup) (hs : ∀ k ∈ l.map Prod.fst, k ∉ seen) :
    fromPairsAux seen l = l := by
  induction l generalizing seen with
  | nil => rfl
  | cons p ps ih =>
    simp only [List.map_cons, List.nodup_cons] at hd
    have hns : p.1 ∉ seen := hs p.1 (by simp)
    have hlk : ps.reverse.lookup p.1 = none := by
      apply lookup_none_of_not_mem_keys
      intro hmem
      exact hd.1 (by simpa using hmem)
    rw [show fromPairsAux seen (p :: ps) =
        if p.1 ∈ seen then fromPairsAux seen ps
        else (p.1, ((ps.reverse.lookup p.1).getD p.2)) :: fromPairsAux (p.1 :: seen) ps
      from by cases p; rfl]
    rw [if_neg hns, hlk]
    have hrest : fromPairsAux (p.1 :: seen) ps = ps := by
      apply ih (p.1 :: seen) hd.2
      intro k hk
      simp only [List.mem_cons]
      push_neg
      constructor
      · intro hkk
        subst hkk
        exact hd.1 hk
      · exact hs k (by simp [hk])
    rw [hrest]
    cases p
    rfl

theorem fromPairs_eq_self (l : QMap) (hd : (l.map Prod.fst).Nodup) : fromPairs l = l :=
  fromPairsAux_eq_self [] l hd (by simp)

theorem map_keys_eq_self (f : String → String) (m : QMap)
    (h : ∀ k ∈ m.map Prod.fst, f k = k) : m.map (fun p => (f p.1, p.2)) = m := by
  induction m with
  | nil => rfl
  | cons p ps ih =>
    simp only [List.map_cons]
    rw [h p.1 (by simp), ih (fun k hk => h k (by simp [hk]))]

theorem setTemporal_keys (t : String) (m : QMap) :
    (setTemporal t m).map Prod.fst = m.map Prod.fst := by
  induction m with
  | nil => rfl
  | cons p ps ih =>
    simp only [setTemporal, List.map_cons] at ih ⊢
    by_cases hp : p.1 = "temporal"
    · simp [hp, ih]
    · simp [hp, ih]

theorem mem_setTemporal_of_ne (k : String) (v : QVal) (t : String) (m : QMap)
    (hk : k ≠ "temporal") (h : (k, v) ∈ setTemporal t m) : (k, v) ∈ m := by
  rcases List.mem_map.mp h with ⟨p, hp, hfp⟩
  by_cases hpt : p.1 = "temporal"
  · rw [if_pos hpt] at hfp
    have hk2 : p.1 = k := congrArg Prod.fst hfp
    exact absurd (hk2 ▸ hpt) hk
  · rw [if_neg hpt] at hfp
    rw [← hfp]
    exact hp

theorem setTemporal_eq_self (t : String) (m : QMap)
    (h : ∀ v, ("temporal", v) ∈ m → replaceTemporalVal t v = v) : setTemporal t m = m := by
  induction m with
  | nil => rfl
  | cons p ps ih =>
    simp only [setTemporal, List.map_cons]
    have hrest : setTemporal t ps = ps := ih (fun v hv => h v (by simp [hv]))
    simp only [setTemporal] at hrest
    rw [hrest]
    by_cases hp : p.1 = "temporal"
    · have hv : replaceTemporalVal t p.2 = p.2 := by
        apply h
        rw [← hp]
        simp
      rw [if_pos hp, hv]
    · rw [if_neg hp]

theorem omitKey_eq_self (k : String) (m : QMap) (h : k ∉ m.map Prod.fst) :
    omitKey k m = m := by
  rw [omitKey, List.filter_eq_self]
  intro p hp
  simp only [decide_eq_true_eq]
  intro hpk
  exact h (hpk ▸ List.mem_map.mpr ⟨p, hp, rfl⟩)

theorem not_mem_keys_omitKey (k : String) (m : QMap) :
    k ∉ (omitKey k m).map Prod.fst := by
  intro h
  rcases List.mem_map.mp h with ⟨p, hp, hfp⟩
  have := (List.mem_filter.mp hp).2
  rw [hfp] at this
  simp at this

theorem keys_nodup_filter (p : String × QVal → Bool) (m : QMap)
    (h : (m.map Prod.fst).Nodup) : ((m.filter p).map Prod.fst).Nodup := by
  have hs : (m.filter p).Sublist m := List.filter_sublist m
  exact (hs.map Prod.fst).nodup h

theorem pickBy_idem (m : QMap) :
    pickByNotMissing (pickByNotMissing m) = pickByNotMissing m := by
  unfold pickByNotMissing
  rw [List.filter_filter]
  congr 1
  funext p
  rw [Bool.and_self]

theorem mem_of_mem_pickBy (q : String × QVal) (m : QMap) (h : q ∈ pickByNotMissing m) :
    q ∈ m := (List.mem_filter.mp h).1

theorem values_notMissing_of_mem_pickBy (q : String × QVal) (m : QMap)
    (h : q ∈ pickByNotMissing m) : isNotMissing q.2 = true := (List.mem_filter.mp h).2

theorem applyScroll_keys_nodup (m : QMap) (h : (m.map Prod.fst).Nodup) :
    ((applyScroll m).map Prod.fst).Nodup := by
  unfold applyScroll
  by_cases hsc : propTruthy "scroll" m = true
  · rw [if_pos hsc]
    exact keys_nodup_filter _ _ h
  · rw [if_neg hsc]
    exact h

theorem applyTemporal_keys (t : String) (m : QMap) :
    (applyTemporal t m).map Prod.fst = m.map Prod.fst := by
  unfold applyTemporal
  by_cases htm : propTruthy "temporal" m = true
  · rw [if_pos htm]
    exact setTemporal_keys t m
  · rw [if_neg htm]

theorem mem_of_mem_applyTemporal_ne (k : String) (v : QVal) (t : String) (m : QMap)
    (hk : k ≠ "temporal") (h : (k, v) ∈ applyTemporal t m) : (k, v) ∈ m := by
  unfold applyTemporal at h
  by_cases htm : propTruthy "temporal" m = true
  · rw [if_pos htm] at h
    exact mem_setTemporal_of_ne k v t m hk h
  · rwa [if_neg htm] at h

theorem mem_of_mem_applyScroll (p : String × QVal) (m : QMap)
    (h : p ∈ applyScroll m) : p ∈ m := by
  unfold applyScroll at h
  by_cases hsc : propTruthy "scroll" m = true
  · rw [if_pos hsc] at h
    exact (List.mem_filter.mp h).1
  · rwa [if_neg hsc] at h

/-- A canonical map whose keys are camel-case fixed points, whose
`scroll`-truthiness implies `pageNum` is absent, and whose `temporal`
value the substitution leaves unchanged, is a fixed point of the whole
normalizer. -/
theorem canonical_fixed (t2 : String) (A : QMap)
    (hnodup : (A.map Prod.fst).Nodup)
    (hkeys : ∀ k ∈ A.map Prod.fst, camelCaseKey k = k)
    (hpick : pickByNotMissing A = A)
    (hscroll : propTruthy "scroll" A = true → "pageNum" ∉ A.map Prod.fst)
    (htemp : ∀ v, ("temporal", v) ∈ A → replaceTemporalVal t2 v = v) :
    toCanonicalQueryParams t2 A = A := by
  unfold toCanonicalQueryParams
  rw [map_keys_eq_self _ _ hkeys, fromPairs_eq_self _ hnodup]
  unfold applyScroll
  by_cases hsc : propTruthy "scroll" A = true
  · rw [if_pos hsc, omitKey_eq_self _ _ (hscroll hsc)]
    unfold applyTemporal
    by_cases htm : propTruthy "temporal" A = true
    · rw [if_pos htm, setTemporal_eq_self _ _ htemp, hpick]
    · rw [if_neg htm, hpick]
  · rw [if_neg hsc]
    unfold applyTemporal
    by_cases htm : propTruthy "temporal" A = true
    · rw [if_pos htm, setTemporal_eq_self _ _ htemp, hpick]
    · rw [if_neg htm, hpick]

/-- **C9** (corrected).  Header normalization is idempotent on *every*
input.  Query normalization is not idempotent in general (see the
counterexample: a canonical key produced from a bracketed name, such as
`options[Title]` from `options[_title]`, is not a fixed point of the
camel-casing and gets lowercased by a second pass); it *is* idempotent on
every canonical map whose keys are fixed points of the camel-casing
function and whose `temporal` value (if any) retains no case-insensitive
`now` token — the latter always holds for a genuine ISO-8601 timestamp
substitution. -/
theorem c9_normalizer_idem (hs q : QMap) (t1 t2 : String) :
    toCanonicalHeaders (toCanonicalHeaders hs) = toCanonicalHeaders hs
      ∧ ((∀ k ∈ (toCanonicalQueryParams t1 q).map Prod.fst, camelCaseKey k = k) →
          (∀ v, (toCanonicalQueryParams t1 q).lookup "temporal" = some v →
            nowFree v = true) →
          toCanonicalQueryParams t2 (toCanonicalQueryParams t1 q) =
            toCanonicalQueryParams t1 q) := by
  constructor
  · have hkeysH : ∀ k ∈ (toCanonicalHeaders hs).map Prod.fst, lowerStr k = k := by
      intro k hk
      rcases List.mem_map.mp hk with ⟨pq, hpq, hfst⟩
      have h1 : pq ∈ fromPairs (hs.map (fun p => (lowerStr p.1, p.2))) :=
        mem_of_mem_pickBy _ _ hpq
      have h2 : k ∈ (fromPairs (hs.map (fun p => (lowerStr p.1, p.2)))).map Prod.fst :=
        List.mem_map.mpr ⟨pq, h1, hfst⟩
      have h3 : k ∈ (hs.map (fun p => (lowerStr p.1, p.2))).map Prod.fst :=
        mem_keys_fromPairsAux [] _ k h2
      rw [List.map_map] at h3
      rcases List.mem_map.mp h3 with ⟨p0, _, hfst2⟩
      rw [← hfst2]
      exact lowerStr_idem p0.1
    have hnodupH : ((toCanonicalHeaders hs).map Prod.fst).Nodup :=
      keys_nodup_filter _ _ (fromPairs_keys_nodup _)
    show pickByNotMissing
        (fromPairs ((toCanonicalHeaders hs).map (fun p => (lowerStr p.1, p.2)))) =
      toCanonicalHeaders hs
    rw [map_keys_eq_self _ _ hkeysH, fromPairs_eq_self _ hnodupH]
    exact pickBy_idem _
  · intro hk ht
    have hnodupB :
        ((fromPairs (q.map (fun p => (camelCaseKey p.1, p.2)))).map Prod.fst).Nodup :=
      fromPairs_keys_nodup _
    have hnodupC :
        ((applyScroll (fromPairs (q.map (fun p => (camelCaseKey p.1, p.2))))).map
            Prod.fst).Nodup :=
      applyScroll_keys_nodup _ hnodupB
    have hnodupD :
        ((applyTemporal t1
              (applyScroll (fromPairs (q.map (fun p => (camelCaseKey p.1, p.2)))))).map
            Prod.fst).Nodup := by
      rw [applyTemporal_keys]
      exact hnodupC
    have hnodupA : ((toCanonicalQueryParams t1 q).map Prod.fst).Nodup :=
      keys_nodup_filter _ _ hnodupD
    have hpickA :
        pickByNotMissing (toCanonicalQueryParams t1 q) = toCanonicalQueryParams t1 q :=
      pickBy_idem _
    have hscrollA : propTruthy "scroll" (toCanonicalQueryParams t1 q) = true →
        "pageNum" ∉ (toCanonicalQueryParams t1 q).map Prod.fst := by
      intro hsc
      unfold propTruthy at hsc
      cases hl : (toCanonicalQueryParams t1 q).lookup "scroll" with
      | none =>
        rw [hl] at hsc
        simp at hsc
      | some v =>
        rw [hl] at hsc
        have hmemA : ("scroll", v) ∈ toCanonicalQueryParams t1 q :=
          mem_of_lookup_eq_some _ _ _ hl
        have hmemD := mem_of_mem_pickBy _ _ hmemA
        have hmemC := mem_of_mem_applyTemporal_ne "scroll" v t1 _ (by decide) hmemD
        have hmemB := mem_of_mem_applyScroll _ _ hmemC
        have hlB : (fromPairs (q.map (fun p => (camelCaseKey p.1, p.2)))).lookup "scroll" =
            some v :=
          lookup_eq_of_mem_nodup _ _ _ hnodupB hmemB
        have hscB :
            propTruthy "scroll" (fromPairs (q.map (fun p => (camelCaseKey p.1, p.2)))) =
              true := by
          unfold propTruthy
          rw [hlB]
          exact hsc
        have hC : applyScroll (fromPairs (q.map (fun p => (camelCaseKey p.1, p.2)))) =
            omitKey "pageNum" (fromPairs (q.map (fun p => (camelCaseKey p.1, p.2)))) := by
          unfold applyScroll
          rw [if_pos hscB]
        intro hpn
        rcases List.mem_map.mp hpn with ⟨pq, hpq, hfst⟩
        have hpqD := mem_of_mem_pickBy _ _ hpq
        have hpqC :=
          mem_of_mem_applyTemporal_ne pq.1 pq.2 t1 _ (by rw [hfst]; decide) hpqD
        rw [hC] at hpqC
        exact not_mem_keys_omitKey "pageNum" _ (List.mem_map.mpr ⟨pq, hpqC, hfst⟩)
    have htempA : ∀ v, ("temporal", v) ∈ toCanonicalQueryParams t1 q →
        replaceTemporalVal t2 v = v := by
      intro v hv
      have hl := lookup_eq_of_mem_nodup _ _ _ hnodupA hv
      have hnf := ht v hl
      cases v with
      | vstr s =>
        unfold nowFree at hnf
        rw [Bool.not_eq_eq_eq_not, Bool.not_true] at hnf
        show QVal.vstr ⟨replaceNowCI t2.data s.data⟩ = QVal.vstr s
        rw [replaceNow_of_not_hasNow _ _ hnf]
      | vnull => rfl
      | vnum n => rfl
      | vbool b => rfl
    exact canonical_fixed t2 _ hnodupA hk hpickA hscrollA htempA

/-- Witness for `c9_normalizer_idem`: a typical canonical output (camel
keys, `scroll` truthy, `pageNum` dropped, `temporal` substituted with an
ISO timestamp) re-normalizes to itself, even at a later clock reading. -/
theorem c9_normalizer_idem_witness :
    (∀ k ∈ (toCanonicalQueryParams "2021-01-02T03:04:05.678Z"
          [("page_size", QVal.vnum 2000), ("scroll", QVal.vbool true),
            ("page_num", QVal.vnum 1), ("temporal", QVal.vstr "P56D/now")]).map Prod.fst,
        camelCaseKey k = k)
      ∧ toCanonicalQueryParams "2022-03-04T05:06:07.890Z"
          (toCanonicalQueryParams "2021-01-02T03:04:05.678Z"
            [("page_size", QVal.vnum 2000), ("scroll", QVal.vbool true),
              ("page_num", QVal.vnum 1), ("temporal", QVal.vstr "P56D/now")]) =
        toCanonicalQueryParams "2021-01-02T03:04:05.678Z"
          [("page_size", QVal.vnum 2000), ("scroll", QVal.vbool true),
            ("page_num", QVal.vnum 1), ("temporal", QVal.vstr "P56D/now")] :=
  ⟨by decide,
    (c9_normalizer_idem []
        [("page_size", QVal.vnum 2000), ("scroll", QVal.vbool true),
          ("page_num", QVal.vnum 1), ("temporal", QVal.vstr "P56D/now")]
        "2021-01-02T03:04:05.678Z" "2022-03-04T05:06:07.890Z").2
      (by decide) (by decide)⟩

/-- **C9** counterexample.  The canonical map produced from
`{options[_title]: "x"}` has key `options[Title]`, and a second
normalization lowercases it to `options[title]`: normalizing an
already-canonical query map is not a no-op. -/
theorem c9_normalizer_idem_counterexample :
    toCanonicalQueryParams "T"
        (toCanonicalQueryParams "T" [("options[_title]", QVal.vstr "x")]) ≠
      toCanonicalQueryParams "T" [("options[_title]", QVal.vstr "x")] := by
  decide
